import Mathlib

-- Verification development for the repository-migration orchestrator
-- (.github/lib/fork-and-import.js). JavaScript strings are modelled by
-- String, with the string operations the script uses (startsWith-style
-- anchored replace, includes, replaceAll) defined through the underlying
-- character list, matching the sequence-of-characters semantics of
-- JavaScript strings.

-- String helpers --------------------------------------------------------

def strStartsWith (s p : String) : Bool :=
  p.data.isPrefixOf s.data

def strDrop (s : String) (n : Nat) : String :=
  ⟨s.data.drop n⟩

-- containsAux pat l decides whether pat occurs as a contiguous block in l,
-- the semantics of JavaScript String.prototype.includes.
def containsAux (pat : List Char) : List Char → Bool
  | [] => pat.isEmpty
  | c :: rest => pat.isPrefixOf (c :: rest) || containsAux pat rest

def containsStr (s pat : String) : Bool :=
  containsAux pat.data s.data

-- replaceAllGo pat rep fuel l scans l left to right and replaces every
-- non-overlapping occurrence of pat by rep, the semantics of JavaScript
-- String.prototype.replaceAll for a non-empty literal pattern. The fuel,
-- set to the length of the scanned list, only serves termination.
def replaceAllGo (pat rep : List Char) : Nat → List Char → List Char
  | 0, s => s
  | _ + 1, [] => []
  | fuel + 1, c :: rest =>
    if pat.isPrefixOf (c :: rest) then
      rep ++ replaceAllGo pat rep fuel (List.drop pat.length (c :: rest))
    else
      c :: replaceAllGo pat rep fuel rest

def replaceAllStr (s pat rep : String) : String :=
  ⟨replaceAllGo pat.data rep.data s.data.length s.data⟩

-- Source translation ----------------------------------------------------

-- getSourceRepoName: targetRepoName.replace(/^cdktn-/, 'cdktf-'), an
-- anchored substitution of the leading cdktn- by cdktf- (fork-and-import.js
-- lines 81 to 86).
def getSourceRepoName (targetRepoName : String) : String :=
  if strStartsWith targetRepoName "cdktn-" then
    "cdktf-" ++ strDrop targetRepoName 6
  else
    targetRepoName

-- Modelled from the spec: the inverse substitution described by the claim
-- about source-name derivation, substituting the cdktn- leading block back
-- for the cdktf- one. Used only to state invertibility; it has no
-- counterpart in the source.
def restoreTargetRepoName (sourceRepoName : String) : String :=
  if strStartsWith sourceRepoName "cdktf-" then
    "cdktn-" ++ strDrop sourceRepoName 6
  else
    sourceRepoName

-- Repository descriptor pushed by parseCdkTfJson (lines 99 to 103).
structure Repo where
  resourceName : String
  name : String
  sourceName : String
deriving DecidableEq

-- cdk.tf.json as consulted by the script: only
-- resource.github_repository.<resourceName>.name is read; other resource
-- types and config fields are never consulted by parseCdkTfJson.
structure RepoConfig where
  name : String
deriving DecidableEq

structure TfResources where
  github_repository : Option (List (String × RepoConfig))
deriving DecidableEq

structure CdkTfJson where
  resource : Option TfResources
deriving DecidableEq

-- parseCdkTfJson (lines 91 to 107): cdkTfJson.resource?.github_repository
-- defaulted to the empty object, then one descriptor per entry.
def parseCdkTfJson (cdkTfJson : CdkTfJson) : List Repo :=
  let githubRepos : List (String × RepoConfig) :=
    match cdkTfJson.resource with
    | none => []
    | some res => res.github_repository.getD []
  githubRepos.map (fun entry =>
    ⟨entry.1, entry.2.name, getSourceRepoName entry.2.name⟩)

-- filterRepositories (lines 115 to 136): whitelist pass only when the
-- only-list is present and non-empty, then blacklist pass only when the
-- exclude-list is non-empty.
def filterRepositories (repos : List Repo) (onlyRepos : Option (List String))
    (excludeRepos : List String) : List Repo :=
  let afterOnly : List Repo :=
    match onlyRepos with
    | some only =>
      if 0 < only.length then repos.filter (fun r => only.contains r.name)
      else repos
    | none => repos
  if 0 < excludeRepos.length then
    afterOnly.filter (fun r => !(excludeRepos.contains r.name))
  else
    afterOnly

-- Probe phase -----------------------------------------------------------

inductive RepoAction where
  | fork
  | createFresh
deriving DecidableEq

structure ProbeResult where
  repo : Repo
  sourceExists : Bool
  targetExists : Bool
  action : RepoAction
deriving DecidableEq

-- Answers of the two read-only existence queries (checkSourceRepo,
-- checkTargetRepo, lines 142 to 165).
structure Env where
  sourceExists : String → Bool
  targetExists : String → Bool

-- One iteration of the probe loop of main (lines 555 to 580): both
-- queries are issued and a result record is pushed for every descriptor.
def probeRepo (env : Env) (r : Repo) : ProbeResult :=
  let s := env.sourceExists r.sourceName
  let t := env.targetExists r.name
  ⟨r, s, t, if s then RepoAction.fork else RepoAction.createFresh⟩

def probeStep (env : Env) (acc : List ProbeResult × Bool) (r : Repo) :
    List ProbeResult × Bool :=
  let pr := probeRepo env r
  (acc.1 ++ [pr], acc.2 || pr.targetExists)

-- The whole probe loop: accumulated results plus the hasConflicts flag.
def probeAll (env : Env) (repos : List Repo) : List ProbeResult × Bool :=
  repos.foldl (probeStep env) ([], false)

-- fixTeamNames content model ---------------------------------------------

def OLD_TEAM : String := "team-tf-cdk"

def OLD_EMAIL : String := "github-team-tf-cdk@hashicorp.com"

def NEW_TEAM : String := "team-cdk-terrain[bot]"

def APP_USER_ID : String := "254218809"

def NEW_EMAIL : String :=
  "<" ++ APP_USER_ID ++ "-" ++ NEW_TEAM ++ "@users.noreply.github.com>"

def OLD_CODEOWNERS_HANDLE : String := "@cdktf/tf-cdk-team"

def NEW_CODEOWNERS_HANDLE : String := "@cdktn-io/team-cdk-terrain"

-- The file state fixTeamNames operates on after cloning the target
-- repository: the CODEOWNERS content when readable, and the workflow
-- files found under .github/workflows (name, content).
structure RepoFs where
  codeowners : Option String
  workflows : List (String × String)
deriving DecidableEq

-- Per workflow file (lines 399 to 413): rewritten only when the content
-- includes one of the two legacy tokens.
def needsFix (content : String) : Bool :=
  containsStr content OLD_TEAM || containsStr content OLD_EMAIL

def fixWorkflowFile (content : String) : String :=
  if needsFix content then
    replaceAllStr (replaceAllStr content OLD_TEAM NEW_TEAM) OLD_EMAIL NEW_EMAIL
  else
    content

structure FixOutcome where
  fs : RepoFs
  filesChanged : Nat
  committed : Bool
deriving DecidableEq

-- fixTeamNames (lines 353 to 439) restricted to its file transformation
-- and commit decision: CODEOWNERS is rewritten and counted whenever
-- readable (lines 376 to 385); an empty workflow list returns before the
-- commit (lines 394 to 397); otherwise each workflow file containing a
-- legacy token is rewritten and counted, and commit plus push run exactly
-- when the counter is positive (lines 415 to 427).
def fixTeamNamesFs (fs : RepoFs) : FixOutcome :=
  let co : Option String :=
    match fs.codeowners with
    | none => none
    | some c => some (replaceAllStr c OLD_CODEOWNERS_HANDLE NEW_CODEOWNERS_HANDLE)
  let c0 : Nat :=
    match fs.codeowners with
    | none => 0
    | some _ => 1
  if fs.workflows.isEmpty then
    ⟨⟨co, fs.workflows⟩, c0, false⟩
  else
    let newWorkflows := fs.workflows.map (fun p => (p.1, fixWorkflowFile p.2))
    let changed := c0 + fs.workflows.countP (fun p => needsFix p.2)
    ⟨⟨co, newWorkflows⟩, changed, decide (0 < changed)⟩

-- Artifact generator -----------------------------------------------------

-- generateImportBlocks (lines 480 to 512), split by push group. The
-- timestamp new Date().toISOString() is passed in as a parameter.
def importIntro (now : String) : List String :=
  ["# Generated by fork-and-import.js",
   "# Generated at: " ++ now,
   "# Import blocks for forked GitHub repositories",
   "",
   "# Only repository resources are imported. Other resources (labels, webhooks, etc.)",
   "# will be created fresh by Terraform, which is acceptable for settings.",
   ""]

def importForkLines (results : List ProbeResult) : List String :=
  (results.map (fun p =>
    if p.action == RepoAction.fork then
      ["import \x7b",
       "  to = github_repository." ++ p.repo.resourceName,
       "  id = \"" ++ p.repo.name ++ "\"",
       "\x7d",
       ""]
    else [])).flatten

def importFreshLines (results : List ProbeResult) : List String :=
  let freshRepos := results.filter (fun p => p.action == RepoAction.createFresh)
  if freshRepos.isEmpty then []
  else
    "# The following repositories will be created fresh (not imported):"
      :: (freshRepos.map (fun p => "#   - " ++ p.repo.name) ++ [""])

def generateImportBlockLines (now : String) (results : List ProbeResult) :
    List String :=
  importIntro now ++ importForkLines results ++ importFreshLines results

def generateImportBlocks (now : String) (results : List ProbeResult) : String :=
  String.intercalate "\n" (generateImportBlockLines now results)

-- Remote-call trace and pipeline ----------------------------------------

-- The remote calls the execute phase can issue, in the order the script
-- shells out to gh or git. probeSource and probeTarget are the read-only
-- existence queries; writeImportTf is the local artifact write.
inductive Ev where
  | probeSource (name : String)
  | probeTarget (name : String)
  | createRepo (name : String)
  | deleteRepo (name : String)
  | disableActions (name : String)
  | enableActions (name : String)
  | approvePRs (name : String)
  | cloneSource (name : String)
  | mirrorPush (name : String)
  | fixClone (name : String)
  | teamFixPush (name : String)
  | writeImportTf
deriving DecidableEq

-- The mutating classification used by the conflict claim: repository
-- creation, deletion, actions toggling, clone, push. Only the two probe
-- queries and the local artifact write fall outside it.
def Ev.isMutating : Ev → Bool
  | .probeSource _ => false
  | .probeTarget _ => false
  | .writeImportTf => false
  | _ => true

-- The probe calls issued by the loop of main (lines 555 to 580), two per
-- filtered descriptor, in order.
def probeEvents : List Repo → List Ev
  | [] => []
  | r :: rest => Ev.probeSource r.sourceName :: Ev.probeTarget r.name :: probeEvents rest

-- Success or failure of each remote operation, per repository name. The
-- script catches failures of disableGitHubActions (lines 218 to 222),
-- enableGitHubActions (lines 237 to 241), the fixTeamNames body (lines
-- 435 to 438) and the cleanup deletion (lines 341 to 343) internally, so
-- those flags never influence control flow; they are recorded here so
-- that a failing environment can be exhibited.
structure PEnv where
  createOk : String → Bool
  disableOk : String → Bool
  cloneOk : String → Bool
  pushOk : String → Bool
  deleteOk : String → Bool
  fixCloneOk : String → Bool
  fixFs : String → RepoFs
  fixPushOk : String → Bool
  enableOk : String → Bool

-- Exception-style sequencing: run b only when a did not throw, as in the
-- try blocks of the script.
def pseq (a b : List Ev × Bool) : List Ev × Bool :=
  if a.2 then (a.1 ++ b.1, b.2) else a

-- createEmptyRepository (lines 172 to 203): the creation call plus the
-- bounded existence polling, collapsed into one success flag; any failure
-- throws.
def runCreateEmpty (penv : PEnv) (targetRepoName : String) : List Ev × Bool :=
  ([Ev.createRepo targetRepoName], penv.createOk targetRepoName)

-- disableGitHubActions (lines 210 to 222): the call is issued, a failure
-- is caught and only logged, so the step never throws.
def runDisableActions (targetRepoName : String) : List Ev × Bool :=
  ([Ev.disableActions targetRepoName], true)

-- migrateRepositoryHistory (lines 270 to 308): bare clone of the source,
-- then mirror push to the target; either failure throws.
def runMigrateHistory (penv : PEnv) (sourceRepoName targetRepoName : String) :
    List Ev × Bool :=
  pseq ([Ev.cloneSource sourceRepoName], penv.cloneOk sourceRepoName)
    ([Ev.mirrorPush targetRepoName], penv.pushOk targetRepoName)

-- createIndependentRepository (lines 317 to 347): steps 1 to 3, and on
-- any throw a best-effort deletion of the target before rethrowing.
def runCreateIndependent (penv : PEnv) (sourceRepoName targetRepoName : String) :
    List Ev × Bool :=
  let body :=
    pseq (runCreateEmpty penv targetRepoName)
      (pseq (runDisableActions targetRepoName)
        (runMigrateHistory penv sourceRepoName targetRepoName))
  if body.2 then body else (body.1 ++ [Ev.deleteRepo targetRepoName], false)

-- fixTeamNames (lines 353 to 439): clone of the target, the rewrite of
-- the checkout, and commit plus push exactly when the change counter is
-- positive; the whole body is wrapped in a catch that only logs, so the
-- step never throws.
def runFixTeamNames (penv : PEnv) (targetRepoName : String) : List Ev × Bool :=
  if penv.fixCloneOk targetRepoName then
    (Ev.fixClone targetRepoName ::
      (if (fixTeamNamesFs (penv.fixFs targetRepoName)).committed then
        [Ev.teamFixPush targetRepoName]
      else []), true)
  else
    ([Ev.fixClone targetRepoName], true)

-- enableGitHubActions (lines 229 to 241): the call is issued, a failure
-- is caught and only logged.
def runEnableActions (targetRepoName : String) : List Ev × Bool :=
  ([Ev.enableActions targetRepoName], true)

-- enableActionsToApprovePRs (lines 249 to 261): defined by the script but
-- never invoked from main; kept here so its call can be named.
def runEnableActionsToApprovePRs (targetRepoName : String) : List Ev × Bool :=
  ([Ev.approvePRs targetRepoName], true)

-- The body of one iteration of the execute loop of main (lines 608 to
-- 619): createIndependentRepository, fixTeamNames, enableGitHubActions.
def runRepoPipeline (penv : PEnv) (p : ProbeResult) : List Ev × Bool :=
  pseq (runCreateIndependent penv p.repo.sourceName p.repo.name)
    (pseq (runFixTeamNames penv p.repo.name) (runEnableActions p.repo.name))

-- The execute loop over the fork-action results (lines 604 to 639): a
-- throw is caught and ends the run with exit 1, so later repositories are
-- not attempted.
def runPipelineLoop (penv : PEnv) : List ProbeResult → List Ev × Bool
  | [] => ([], true)
  | p :: rest =>
    if (runRepoPipeline penv p).2 then
      ((runRepoPipeline penv p).1 ++ (runPipelineLoop penv rest).1,
        (runPipelineLoop penv rest).2)
    else
      ((runRepoPipeline penv p).1, false)

structure RunResult where
  exit : Nat
  events : List Ev
  probed : List ProbeResult
  importTf : Option String
deriving DecidableEq

-- main (lines 517 to 755): filter, empty-filter exit 0, probe loop,
-- conflict exit 1, execute loop only without dry-run, then the artifact
-- write and exit 0. The artifact is written in dry-run mode and after a
-- fully successful execute loop, but not on the conflict exit and not on
-- the caught pipeline failure (process.exit(1) at line 634 precedes the
-- write).
def mainRun (now : String) (dryRun : Bool) (onlyRepos : Option (List String))
    (excludeRepos : List String) (env : Env) (penv : PEnv)
    (repos : List Repo) : RunResult :=
  let filtered := filterRepositories repos onlyRepos excludeRepos
  if filtered.isEmpty then ⟨0, [], [], none⟩
  else
    let probed := (probeAll env filtered).1
    let hasConflicts := (probeAll env filtered).2
    if hasConflicts then ⟨1, probeEvents filtered, probed, none⟩
    else if dryRun then
      ⟨0, probeEvents filtered ++ [Ev.writeImportTf], probed,
        some (generateImportBlocks now probed)⟩
    else
      let toFork := probed.filter (fun p => p.action == RepoAction.fork)
      if (runPipelineLoop penv toFork).2 then
        ⟨0, probeEvents filtered ++ (runPipelineLoop penv toFork).1 ++ [Ev.writeImportTf],
          probed, some (generateImportBlocks now probed)⟩
      else
        ⟨1, probeEvents filtered ++ (runPipelineLoop penv toFork).1, probed, none⟩

-- The checks the script performs before main (lines 34 to 75): usage
-- error without a stack directory, mutually exclusive filter flags,
-- existence of the stack directory, existence of cdk.tf.json. Each
-- failure exits 1 before any remote call.
structure ScriptInput where
  stackDirGiven : Bool
  stackDirExists : Bool
  cdkTfJsonFile : Option CdkTfJson
  onlyRepos : Option (List String)
  excludeRepos : List String
  dryRun : Bool

def scriptRun (now : String) (inp : ScriptInput) (env : Env) (penv : PEnv) :
    RunResult :=
  if !inp.stackDirGiven then ⟨1, [], [], none⟩
  else if inp.onlyRepos.isSome && !inp.excludeRepos.isEmpty then ⟨1, [], [], none⟩
  else if !inp.stackDirExists then ⟨1, [], [], none⟩
  else
    match inp.cdkTfJsonFile with
    | none => ⟨1, [], [], none⟩
    | some doc =>
      mainRun now inp.dryRun inp.onlyRepos inp.excludeRepos env penv
        (parseCdkTfJson doc)

-- Concrete fixtures for evaluated instances -----------------------------

def exRepo : Repo := ⟨"res", "cdktn-a", "cdktf-a"⟩

-- Source repository exists, target name free: fork path, no conflict.
def envForkOk : Env := ⟨fun _ => true, fun _ => false⟩

-- Source repository missing, target name free: create-fresh path.
def envFreshOk : Env := ⟨fun _ => false, fun _ => false⟩

def penvAllOk : PEnv :=
  ⟨fun _ => true, fun _ => true, fun _ => true, fun _ => true, fun _ => true,
    fun _ => true, fun _ => ⟨none, []⟩, fun _ => true, fun _ => true⟩

-- The remote calls whose failures the script catches internally all fail:
-- disabling actions, the fixTeamNames clone, the fixTeamNames push and
-- re-enabling actions. The structural calls succeed.
def penvSideFail : PEnv :=
  ⟨fun _ => true, fun _ => false, fun _ => true, fun _ => true, fun _ => true,
    fun _ => false, fun _ => ⟨none, []⟩, fun _ => false, fun _ => false⟩

-- Repository creation fails.
def penvCreateFail : PEnv :=
  ⟨fun _ => false, fun _ => true, fun _ => true, fun _ => true, fun _ => true,
    fun _ => true, fun _ => ⟨none, []⟩, fun _ => true, fun _ => true⟩

-- Helper lemmas ----------------------------------------------------------

theorem probeAll_foldl (env : Env) (repos : List Repo) :
    ∀ acc : List ProbeResult × Bool,
      repos.foldl (probeStep env) acc =
        (acc.1 ++ repos.map (probeRepo env),
          acc.2 || repos.any (fun r => env.targetExists r.name)) := by
  induction repos with
  | nil => intro acc; simp
  | cons r rest ih =>
    intro acc
    simp only [List.foldl_cons, ih, probeStep, List.map_cons, List.any_cons]
    simp [probeRepo, Bool.or_assoc]

theorem probeAll_fst (env : Env) (repos : List Repo) :
    (probeAll env repos).1 = repos.map (probeRepo env) := by
  simp [probeAll, probeAll_foldl]

theorem probeAll_snd (env : Env) (repos : List Repo) :
    (probeAll env repos).2 = repos.any (fun r => env.targetExists r.name) := by
  simp [probeAll, probeAll_foldl]

theorem probeEvents_no_mutating (repos : List Repo) :
    (probeEvents repos).filter Ev.isMutating = [] := by
  induction repos with
  | nil => rfl
  | cons r rest ih => simp [probeEvents, List.filter, Ev.isMutating, ih]

theorem isPrefixOf_append_self (p t : List Char) : p.isPrefixOf (p ++ t) = true := by
  induction p with
  | nil => simp [List.isPrefixOf]
  | cons a as ih => simp [List.isPrefixOf, ih]

theorem exists_suffix_of_isPrefixOf {p l : List Char}
    (h : p.isPrefixOf l = true) : ∃ t, l = p ++ t := by
  induction p generalizing l with
  | nil => exact ⟨l, rfl⟩
  | cons a as ih =>
    cases l with
    | nil => simp [List.isPrefixOf] at h
    | cons b bs =>
      simp only [List.isPrefixOf, Bool.and_eq_true, beq_iff_eq] at h
      obtain ⟨t, ht⟩ := ih h.2
      exact ⟨t, by simp [h.1, ht]⟩

theorem replaceAllGo_of_not_contains (pat rep : List Char) :
    ∀ (l : List Char) (fuel : Nat), containsAux pat l = false →
      replaceAllGo pat rep fuel l = l := by
  intro l
  induction l with
  | nil => intro fuel _; cases fuel <;> rfl
  | cons c rest ih =>
    intro fuel h
    simp only [containsAux, Bool.or_eq_false_iff] at h
    cases fuel with
    | zero => rfl
    | succ n => simp [replaceAllGo, h.1, ih n h.2]

theorem replaceAllStr_of_not_contains (s pat rep : String)
    (h : containsStr s pat = false) : replaceAllStr s pat rep = s := by
  unfold replaceAllStr
  rw [replaceAllGo_of_not_contains pat.data rep.data s.data s.data.length h]

theorem runCreateIndependent_snd (penv : PEnv) (s t : String) :
    (runCreateIndependent penv s t).2 =
      (penv.createOk t && (penv.cloneOk s && penv.pushOk t)) := by
  unfold runCreateIndependent runCreateEmpty runDisableActions runMigrateHistory pseq
  cases hc : penv.createOk t <;> cases hl : penv.cloneOk s <;>
    cases hp : penv.pushOk t <;> simp [hc, hl, hp]

theorem runCreateIndependent_delete_of_fail (penv : PEnv) (s t : String)
    (h : (runCreateIndependent penv s t).2 = false) :
    Ev.deleteRepo t ∈ (runCreateIndependent penv s t).1 := by
  unfold runCreateIndependent runCreateEmpty runDisableActions runMigrateHistory pseq
  unfold runCreateIndependent runCreateEmpty runDisableActions runMigrateHistory pseq at h
  cases hc : penv.createOk t <;> cases hl : penv.cloneOk s <;>
    cases hp : penv.pushOk t <;> simp_all

theorem runRepoPipeline_snd (penv : PEnv) (p : ProbeResult) :
    (runRepoPipeline penv p).2 =
      (runCreateIndependent penv p.repo.sourceName p.repo.name).2 := by
  unfold runRepoPipeline
  cases h : (runCreateIndependent penv p.repo.sourceName p.repo.name).2 with
  | false => simp [pseq, h]
  | true =>
    simp only [pseq, h, if_true]
    unfold runFixTeamNames runEnableActions
    cases hf : penv.fixCloneOk p.repo.name <;> simp [hf]

theorem runRepoPipeline_fst_of_fail (penv : PEnv) (p : ProbeResult)
    (h : (runCreateIndependent penv p.repo.sourceName p.repo.name).2 = false) :
    (runRepoPipeline penv p).1 =
      (runCreateIndependent penv p.repo.sourceName p.repo.name).1 := by
  unfold runRepoPipeline pseq
  simp [h]

theorem runRepoPipeline_fst_of_ok (penv : PEnv) (p : ProbeResult)
    (h : (runCreateIndependent penv p.repo.sourceName p.repo.name).2 = true) :
    (runRepoPipeline penv p).1 =
      (runCreateIndependent penv p.repo.sourceName p.repo.name).1 ++
        (runFixTeamNames penv p.repo.name).1 ++ [Ev.enableActions p.repo.name] := by
  unfold runRepoPipeline pseq runEnableActions
  unfold runFixTeamNames
  cases hf : penv.fixCloneOk p.repo.name <;> simp [h, hf]

theorem enableActions_mem_of_repo_ok (penv : PEnv) (p : ProbeResult)
    (h : (runRepoPipeline penv p).2 = true) :
    Ev.enableActions p.repo.name ∈ (runRepoPipeline penv p).1 := by
  rw [runRepoPipeline_snd] at h
  rw [runRepoPipeline_fst_of_ok penv p h]
  simp

theorem runPipelineLoop_ok_append (penv : PEnv) (pre rest : List ProbeResult)
    (h : ∀ q ∈ pre, (runRepoPipeline penv q).2 = true) :
    runPipelineLoop penv (pre ++ rest) =
      ((pre.map (fun q => (runRepoPipeline penv q).1)).flatten ++
        (runPipelineLoop penv rest).1, (runPipelineLoop penv rest).2) := by
  induction pre with
  | nil => simp [runPipelineLoop]
  | cons q pre ih =>
    have hq : (runRepoPipeline penv q).2 = true := h q (by simp)
    have ih2 := ih (fun x hx => h x (by simp [hx]))
    simp [runPipelineLoop, hq, ih2]

theorem runPipelineLoop_fail_head (penv : PEnv) (p : ProbeResult)
    (rest : List ProbeResult) (h : (runRepoPipeline penv p).2 = false) :
    runPipelineLoop penv (p :: rest) = ((runRepoPipeline penv p).1, false) := by
  simp [runPipelineLoop, h]

theorem enableActions_mem_of_loop_ok (penv : PEnv) (l : List ProbeResult)
    (h : (runPipelineLoop penv l).2 = true) :
    ∀ p ∈ l, Ev.enableActions p.repo.name ∈ (runPipelineLoop penv l).1 := by
  induction l with
  | nil => simp
  | cons q rest ih =>
    intro p hp
    by_cases hq : (runRepoPipeline penv q).2 = true
    · have hloop : runPipelineLoop penv (q :: rest) =
          ((runRepoPipeline penv q).1 ++ (runPipelineLoop penv rest).1,
            (runPipelineLoop penv rest).2) := by
        simp [runPipelineLoop, hq]
      rw [hloop] at h ⊢
      rcases List.mem_cons.mp hp with hpq | hpr
      · subst hpq
        exact List.mem_append_left _ (enableActions_mem_of_repo_ok penv p hq)
      · exact List.mem_append_right _ (ih h p hpr)
    · rw [runPipelineLoop_fail_head penv q rest (Bool.eq_false_iff.mpr hq)] at h
      simp at h

theorem approvePRs_not_mem_createIndependent (penv : PEnv) (s t x : String) :
    Ev.approvePRs x ∉ (runCreateIndependent penv s t).1 := by
  unfold runCreateIndependent runCreateEmpty runDisableActions runMigrateHistory pseq
  cases hc : penv.createOk t <;> cases hl : penv.cloneOk s <;>
    cases hp : penv.pushOk t <;> simp

theorem approvePRs_not_mem_fix (penv : PEnv) (t x : String) :
    Ev.approvePRs x ∉ (runFixTeamNames penv t).1 := by
  unfold runFixTeamNames
  cases hf : penv.fixCloneOk t <;>
    cases hc : (fixTeamNamesFs (penv.fixFs t)).committed <;> simp [hf, hc]

theorem approvePRs_not_mem_repoPipeline (penv : PEnv) (p : ProbeResult) (x : String) :
    Ev.approvePRs x ∉ (runRepoPipeline penv p).1 := by
  by_cases h : (runCreateIndependent penv p.repo.sourceName p.repo.name).2 = true
  · rw [runRepoPipeline_fst_of_ok penv p h]
    simp only [List.mem_append, List.mem_singleton]
    push_neg
    exact ⟨⟨approvePRs_not_mem_createIndependent penv _ _ x,
      approvePRs_not_mem_fix penv _ x⟩, by simp⟩
  · rw [runRepoPipeline_fst_of_fail penv p (Bool.eq_false_iff.mpr h)]
    exact approvePRs_not_mem_createIndependent penv _ _ x

theorem approvePRs_not_mem_loop (penv : PEnv) (l : List ProbeResult) (x : String) :
    Ev.approvePRs x ∉ (runPipelineLoop penv l).1 := by
  induction l with
  | nil => simp [runPipelineLoop]
  | cons q rest ih =>
    by_cases hq : (runRepoPipeline penv q).2 = true
    · simp only [runPipelineLoop, hq, if_true, List.mem_append]
      push_neg
      exact ⟨approvePRs_not_mem_repoPipeline penv q x, ih⟩
    · rw [runPipelineLoop_fail_head penv q rest (Bool.eq_false_iff.mpr hq)]
      exact approvePRs_not_mem_repoPipeline penv q x

theorem approvePRs_not_mem_probeEvents (repos : List Repo) (x : String) :
    Ev.approvePRs x ∉ probeEvents repos := by
  induction repos with
  | nil => simp [probeEvents]
  | cons r rest ih => simp [probeEvents, ih]

theorem approvePRs_not_mem_mainRun (now : String) (dryRun : Bool)
    (onlyRepos : Option (List String)) (excludeRepos : List String)
    (env : Env) (penv : PEnv) (repos : List Repo) (x : String) :
    Ev.approvePRs x ∉
      (mainRun now dryRun onlyRepos excludeRepos env penv repos).events := by
  simp only [mainRun]
  split
  · simp
  · split
    · exact approvePRs_not_mem_probeEvents _ x
    · split
      · simp only [List.mem_append, List.mem_singleton]
        push_neg
        exact ⟨approvePRs_not_mem_probeEvents _ x, by simp⟩
      · split
        · simp only [List.mem_append, List.mem_singleton]
          push_neg
          exact ⟨⟨approvePRs_not_mem_probeEvents _ x,
            approvePRs_not_mem_loop penv _ x⟩, by simp⟩
        · simp only [List.mem_append]
          push_neg
          exact ⟨approvePRs_not_mem_probeEvents _ x,
            approvePRs_not_mem_loop penv _ x⟩

-- Claim theorems ---------------------------------------------------------

/-- C10: the probe loop of main does not short-circuit: the result list is
the pointwise probe of every filtered descriptor, each record carrying the
source query, the target query and the derived action, and the conflict
flag is the disjunction over all descriptors, so every conflict is
reported in a single run before the abort. -/
theorem c10_probe_no_short_circuit (env : Env) (repos : List Repo) :
    (probeAll env repos).1 = repos.map (probeRepo env) ∧
    (probeAll env repos).2 = repos.any (fun r => env.targetExists r.name) ∧
    ∀ r : Repo, probeRepo env r =
      ⟨r, env.sourceExists r.sourceName, env.targetExists r.name,
        if env.sourceExists r.sourceName then RepoAction.fork
        else RepoAction.createFresh⟩ :=
  ⟨probeAll_fst env repos, probeAll_snd env repos, fun _ => rfl⟩

/-- C5: generateImportBlocks is a deterministic function of the result
list apart from the timestamp argument: two runs differ exactly in line
index 1, the generated-at line, both as line lists and in the joined
document. -/
theorem c5_artifact_deterministic_modulo_timestamp (now1 now2 : String)
    (results : List ProbeResult) :
    generateImportBlockLines now1 results =
      (generateImportBlockLines now2 results).set 1 ("# Generated at: " ++ now1) ∧
    (generateImportBlockLines now1 results).get? 1 =
      some ("# Generated at: " ++ now1) ∧
    generateImportBlocks now1 results =
      String.intercalate "\n"
        ((generateImportBlockLines now2 results).set 1
          ("# Generated at: " ++ now1)) :=
  ⟨rfl, rfl, rfl⟩

/-- C6: getSourceRepoName is a pure function that substitutes the cdktf-
leading block for an existing cdktn- one, the substitution is undone by
the reverse substitution, and a name without the cdktn- leading block is
returned unchanged. -/
theorem c6_source_name_substitution (n : String) :
    (strStartsWith n "cdktn-" = true →
      getSourceRepoName n = "cdktf-" ++ strDrop n 6 ∧
      restoreTargetRepoName (getSourceRepoName n) = n) ∧
    (strStartsWith n "cdktn-" = false → getSourceRepoName n = n) := by
  constructor
  · intro h
    refine ⟨by simp [getSourceRepoName, h], ?_⟩
    obtain ⟨t, ht⟩ :=
      exists_suffix_of_isPrefixOf (p := "cdktn-".data) (l := n.data) h
    have hdrop : strDrop n 6 = (⟨t⟩ : String) := by
      unfold strDrop
      rw [ht]
      rfl
    have hsrc : getSourceRepoName n = "cdktf-" ++ (⟨t⟩ : String) := by
      simp [getSourceRepoName, h, hdrop]
    rw [hsrc]
    have hsw : strStartsWith ("cdktf-" ++ (⟨t⟩ : String)) "cdktf-" = true := by
      unfold strStartsWith
      rw [String.data_append]
      exact isPrefixOf_append_self _ _
    have hdrop2 : strDrop ("cdktf-" ++ (⟨t⟩ : String)) 6 = (⟨t⟩ : String) := by
      unfold strDrop
      rw [String.data_append]
      rfl
    simp only [restoreTargetRepoName, hsw, if_true, hdrop2]
    apply String.ext
    rw [String.data_append, ht]
  · intro h
    simp [getSourceRepoName, h]

/-- C6 witness: the substitution and its inverse evaluated on a name with
the cdktn- leading block, and identity on a name without it. -/
theorem c6_source_name_substitution_witness :
    restoreTargetRepoName (getSourceRepoName "cdktn-provider-aws") =
      "cdktn-provider-aws" ∧
    getSourceRepoName "terraform-setup" = "terraform-setup" :=
  ⟨((c6_source_name_substitution "cdktn-provider-aws").1 (by decide)).2,
    (c6_source_name_substitution "terraform-setup").2 (by decide)⟩

/-- C1: when the probe finds the target name of any filtered descriptor in
the target organization, the run exits 1 and its call trace is exactly the
read-only probe queries, so zero mutating remote calls happen, for either
value of the dry-run flag. -/
theorem c1_conflict_aborts_run (now : String) (dryRun : Bool)
    (onlyRepos : Option (List String)) (excludeRepos : List String)
    (env : Env) (penv : PEnv) (repos : List Repo) (r : Repo)
    (hr : r ∈ filterRepositories repos onlyRepos excludeRepos)
    (ht : env.targetExists r.name = true) :
    (mainRun now dryRun onlyRepos excludeRepos env penv repos).exit = 1 ∧
    (mainRun now dryRun onlyRepos excludeRepos env penv repos).events =
      probeEvents (filterRepositories repos onlyRepos excludeRepos) ∧
    ((mainRun now dryRun onlyRepos excludeRepos env penv repos).events.filter
      Ev.isMutating) = [] := by
  have hne : (filterRepositories repos onlyRepos excludeRepos).isEmpty = false := by
    cases hl : filterRepositories repos onlyRepos excludeRepos with
    | nil => rw [hl] at hr; simp at hr
    | cons a l => simp
  have hc : (probeAll env (filterRepositories repos onlyRepos excludeRepos)).2
      = true := by
    rw [probeAll_snd]
    exact List.any_eq_true.mpr ⟨r, hr, ht⟩
  simp only [mainRun, hne, hc]
  simp [probeEvents_no_mutating]

/-- C1 witness: a single-descriptor run whose target name already exists
aborts with exit 1 and probe-only calls, with the execute flag set. -/
theorem c1_conflict_aborts_run_witness :
    (mainRun "T" false none [] ⟨fun _ => true, fun _ => true⟩
      ⟨fun _ => true, fun _ => true, fun _ => true, fun _ => true, fun _ => true,
        fun _ => true, fun _ => ⟨none, []⟩, fun _ => true, fun _ => true⟩
      [⟨"res", "cdktn-a", "cdktf-a"⟩]).exit = 1 ∧
    (mainRun "T" false none [] ⟨fun _ => true, fun _ => true⟩
      ⟨fun _ => true, fun _ => true, fun _ => true, fun _ => true, fun _ => true,
        fun _ => true, fun _ => ⟨none, []⟩, fun _ => true, fun _ => true⟩
      [⟨"res", "cdktn-a", "cdktf-a"⟩]).events =
      probeEvents [⟨"res", "cdktn-a", "cdktf-a"⟩] ∧
    ((mainRun "T" false none [] ⟨fun _ => true, fun _ => true⟩
      ⟨fun _ => true, fun _ => true, fun _ => true, fun _ => true, fun _ => true,
        fun _ => true, fun _ => ⟨none, []⟩, fun _ => true, fun _ => true⟩
      [⟨"res", "cdktn-a", "cdktf-a"⟩]).events.filter Ev.isMutating) = [] :=
  c1_conflict_aborts_run "T" false none []
    ⟨fun _ => true, fun _ => true⟩
    ⟨fun _ => true, fun _ => true, fun _ => true, fun _ => true, fun _ => true,
      fun _ => true, fun _ => ⟨none, []⟩, fun _ => true, fun _ => true⟩
    [⟨"res", "cdktn-a", "cdktf-a"⟩] ⟨"res", "cdktn-a", "cdktf-a"⟩
    (by decide) rfl

/-- C7 counterexample: for the empty sub-selection the only-pass is
skipped, so both calls return the whole list and the claimed partition
fails: the sole descriptor lies in both results, so their intersection is
not empty. -/
theorem c7_partition_counterexample :
    filterRepositories [Repo.mk "a" "a" "a"] (some []) [] = [Repo.mk "a" "a" "a"] ∧
    filterRepositories [Repo.mk "a" "a" "a"] none [] = [Repo.mk "a" "a" "a"] ∧
    Repo.mk "a" "a" "a" ∈ filterRepositories [Repo.mk "a" "a" "a"] (some []) [] ∧
    Repo.mk "a" "a" "a" ∈ filterRepositories [Repo.mk "a" "a" "a"] none [] := by
  decide

/-- C7 amended: for every descriptor list S and every non-empty name
sub-selection X, the only-X result and the exclude-X result partition S
elementwise: every descriptor of S lies in at least one of the two results
and no descriptor lies in both. For the empty sub-selection both calls
return S unchanged and the partition fails. -/
theorem c7_partition_of_ne_nil (S : List Repo) (X : List String) (hX : X ≠ []) :
    (∀ r : Repo, r ∈ S ↔
      (r ∈ filterRepositories S (some X) [] ∨ r ∈ filterRepositories S none X)) ∧
    (∀ r : Repo,
      ¬(r ∈ filterRepositories S (some X) [] ∧ r ∈ filterRepositories S none X)) := by
  have hlen : 0 < X.length := List.length_pos.mpr hX
  have hA : filterRepositories S (some X) [] =
      S.filter (fun r => X.contains r.name) := by
    simp [filterRepositories, hlen]
  have hB : filterRepositories S none X =
      S.filter (fun r => !(X.contains r.name)) := by
    simp [filterRepositories, hlen]
  constructor
  · intro r
    rw [hA, hB]
    simp only [List.mem_filter]
    by_cases h : X.contains r.name = true <;> simp [h] <;> tauto
  · intro r
    rw [hA, hB]
    simp only [List.mem_filter]
    rintro ⟨⟨-, h1⟩, -, h2⟩
    rw [h1] at h2
    simp at h2

/-- C7 witness: the partition evaluated on a one-descriptor list and the
singleton sub-selection. -/
theorem c7_partition_of_ne_nil_witness :
    ¬(Repo.mk "a" "a" "a" ∈ filterRepositories [Repo.mk "a" "a" "a"] (some ["a"]) [] ∧
      Repo.mk "a" "a" "a" ∈ filterRepositories [Repo.mk "a" "a" "a"] none ["a"]) :=
  (c7_partition_of_ne_nil [Repo.mk "a" "a" "a"] ["a"] (by decide)).2
    (Repo.mk "a" "a" "a")

/-- C2 counterexample: a fork-path run in which step 2 (disable actions),
step 4 (the fixTeamNames clone) and step 6 (re-enable actions) all fail
still finishes with exit 0 and never attempts the compensating deletion,
because the script catches those failures internally; so a failure in
steps 1 to 6 does not in general trigger deletion and abort. -/
theorem c2_compensation_counterexample :
    penvSideFail.disableOk "cdktn-a" = false ∧
    penvSideFail.fixCloneOk "cdktn-a" = false ∧
    penvSideFail.enableOk "cdktn-a" = false ∧
    Ev.disableActions "cdktn-a" ∈
      (mainRun "T" false none [] envForkOk penvSideFail [exRepo]).events ∧
    Ev.enableActions "cdktn-a" ∈
      (mainRun "T" false none [] envForkOk penvSideFail [exRepo]).events ∧
    (mainRun "T" false none [] envForkOk penvSideFail [exRepo]).exit = 0 ∧
    Ev.deleteRepo "cdktn-a" ∉
      (mainRun "T" false none [] envForkOk penvSideFail [exRepo]).events := by
  decide

/-- C2 amended: on the fork path a failure of repository creation or of
the history transfer, the steps createIndependentRepository can throw
from, triggers the best-effort deletion of the target repository and
aborts the whole run with exit 1, the trace ending at the failing
repository with no later repository attempted; per-repository success
depends only on the creation, clone and push outcomes, because failures
of the disable, rewrite and re-enable steps are caught internally. -/
theorem c2_structural_failure_aborts
    (now : String) (onlyRepos : Option (List String)) (excludeRepos : List String)
    (env : Env) (penv : PEnv) (repos : List Repo)
    (pre post : List ProbeResult) (p : ProbeResult)
    (hnc : (probeAll env (filterRepositories repos onlyRepos excludeRepos)).2 = false)
    (hsplit : ((probeAll env (filterRepositories repos onlyRepos excludeRepos)).1).filter
        (fun q => q.action == RepoAction.fork) = pre ++ p :: post)
    (hpre : ∀ q ∈ pre, (runRepoPipeline penv q).2 = true)
    (hfail : (runCreateIndependent penv p.repo.sourceName p.repo.name).2 = false) :
    (mainRun now false onlyRepos excludeRepos env penv repos).exit = 1 ∧
    (mainRun now false onlyRepos excludeRepos env penv repos).events =
      probeEvents (filterRepositories repos onlyRepos excludeRepos) ++
        ((pre.map (fun q => (runRepoPipeline penv q).1)).flatten ++
          (runCreateIndependent penv p.repo.sourceName p.repo.name).1) ∧
    Ev.deleteRepo p.repo.name ∈
      (runCreateIndependent penv p.repo.sourceName p.repo.name).1 ∧
    (∀ q : ProbeResult, (runRepoPipeline penv q).2 =
      (penv.createOk q.repo.name &&
        (penv.cloneOk q.repo.sourceName && penv.pushOk q.repo.name))) := by
  have hne : (filterRepositories repos onlyRepos excludeRepos).isEmpty = false := by
    cases hl : filterRepositories repos onlyRepos excludeRepos with
    | nil =>
      exfalso
      rw [hl] at hsplit
      have h0 : (probeAll env ([] : List Repo)).1 = [] := by
        simp [probeAll_fst]
      rw [h0] at hsplit
      simp at hsplit
    | cons a l => simp
  have hfailrp : (runRepoPipeline penv p).2 = false := by
    rw [runRepoPipeline_snd]
    exact hfail
  have hloop : runPipelineLoop penv (pre ++ p :: post) =
      ((pre.map (fun q => (runRepoPipeline penv q).1)).flatten ++
        (runRepoPipeline penv p).1, false) := by
    rw [runPipelineLoop_ok_append penv pre (p :: post) hpre,
      runPipelineLoop_fail_head penv p post hfailrp]
  have hev : (runRepoPipeline penv p).1 =
      (runCreateIndependent penv p.repo.sourceName p.repo.name).1 :=
    runRepoPipeline_fst_of_fail penv p hfail
  refine ⟨?_, ?_, runCreateIndependent_delete_of_fail penv _ _ hfail, ?_⟩
  · simp [mainRun, hne, hnc, hsplit, hloop]
  · simp [mainRun, hne, hnc, hsplit, hloop, hev]
  · intro q
    rw [runRepoPipeline_snd, runCreateIndependent_snd]

/-- C2 witness: creation failure on a single fork-path repository aborts
with exit 1 and the deletion call in the createIndependentRepository
trace. -/
theorem c2_structural_failure_aborts_witness :
    (mainRun "T" false none [] envForkOk penvCreateFail [exRepo]).exit = 1 ∧
    Ev.deleteRepo "cdktn-a" ∈
      (runCreateIndependent penvCreateFail "cdktf-a" "cdktn-a").1 := by
  have h := c2_structural_failure_aborts "T" none [] envForkOk penvCreateFail
    [exRepo] [] [] ⟨exRepo, true, false, RepoAction.fork⟩
    (by decide) (by decide) (by simp) (by decide)
  exact ⟨h.1, h.2.2.1⟩

/-- C3 counterexample: an execute run over a single CreateFresh descriptor
performs no mutating call at all: no creation, no actions toggling, no
re-enable, contrary to the claimed steps 1, 2 and 6; the execute loop only
visits fork-action results. -/
theorem c3_createfresh_counterexample :
    (probeAll envFreshOk [exRepo]).1 =
      [⟨exRepo, false, false, RepoAction.createFresh⟩] ∧
    (mainRun "T" false none [] envFreshOk penvAllOk [exRepo]).exit = 0 ∧
    Ev.createRepo "cdktn-a" ∉
      (mainRun "T" false none [] envFreshOk penvAllOk [exRepo]).events ∧
    Ev.disableActions "cdktn-a" ∉
      (mainRun "T" false none [] envFreshOk penvAllOk [exRepo]).events ∧
    Ev.enableActions "cdktn-a" ∉
      (mainRun "T" false none [] envFreshOk penvAllOk [exRepo]).events ∧
    ((mainRun "T" false none [] envFreshOk penvAllOk [exRepo]).events.filter
      Ev.isMutating) = [] := by
  decide

/-- C3 amended: CreateFresh descriptors are excluded from the execute
loop, which iterates only over fork-action results; a conflict-free
execute run whose filtered descriptors are all CreateFresh issues only the
probe queries plus the artifact write and exits 0, leaving those
repositories for the declarative layer to create. -/
theorem c3_createfresh_skipped (now : String)
    (onlyRepos : Option (List String)) (excludeRepos : List String)
    (env : Env) (penv : PEnv) (repos : List Repo)
    (hne : (filterRepositories repos onlyRepos excludeRepos).isEmpty = false)
    (hnc : (probeAll env (filterRepositories repos onlyRepos excludeRepos)).2 = false)
    (hall : ∀ q ∈ (probeAll env (filterRepositories repos onlyRepos excludeRepos)).1,
      q.action = RepoAction.createFresh) :
    (mainRun now false onlyRepos excludeRepos env penv repos).exit = 0 ∧
    (mainRun now false onlyRepos excludeRepos env penv repos).events =
      probeEvents (filterRepositories repos onlyRepos excludeRepos) ++
        [Ev.writeImportTf] ∧
    ((mainRun now false onlyRepos excludeRepos env penv repos).events.filter
      Ev.isMutating) = [] := by
  have htf : ((probeAll env (filterRepositories repos onlyRepos excludeRepos)).1).filter
      (fun q => q.action == RepoAction.fork) = [] := by
    rw [List.filter_eq_nil_iff]
    intro q hq
    simp [hall q hq]
  refine ⟨?_, ?_, ?_⟩
  · simp [mainRun, hne, hnc, htf, runPipelineLoop]
  · simp [mainRun, hne, hnc, htf, runPipelineLoop]
  · simp [mainRun, hne, hnc, htf, runPipelineLoop, List.filter_append,
      probeEvents_no_mutating, Ev.isMutating]

/-- C3 witness: the amended statement evaluated on a single CreateFresh
descriptor. -/
theorem c3_createfresh_skipped_witness :
    (mainRun "T" false none [] envFreshOk penvAllOk [exRepo]).exit = 0 ∧
    (mainRun "T" false none [] envFreshOk penvAllOk [exRepo]).events =
      probeEvents [exRepo] ++ [Ev.writeImportTf] ∧
    ((mainRun "T" false none [] envFreshOk penvAllOk [exRepo]).events.filter
      Ev.isMutating) = [] := by
  have h := c3_createfresh_skipped "T" none [] envFreshOk penvAllOk [exRepo]
    (by decide) (by decide) (by decide)
  exact h

/-- C4 counterexample: a fully successful fork-path execute run re-enables
actions but never issues the PR-approval grant call: the helper
enableActionsToApprovePRs exists in the script but is not invoked by
main, so the final pipeline step does not grant workflow runs permission
to approve pull requests. -/
theorem c4_pr_approval_counterexample :
    (mainRun "T" false none [] envForkOk penvAllOk [exRepo]).exit = 0 ∧
    Ev.enableActions "cdktn-a" ∈
      (mainRun "T" false none [] envForkOk penvAllOk [exRepo]).events ∧
    (runEnableActionsToApprovePRs "cdktn-a").1 = [Ev.approvePRs "cdktn-a"] ∧
    Ev.approvePRs "cdktn-a" ∉
      (mainRun "T" false none [] envForkOk penvAllOk [exRepo]).events := by
  decide

/-- C4 amended: the final per-repository step re-enables automated
workflow execution only: no run of main ever issues the PR-approval grant
call, while on a conflict-free execute run with a fully successful loop
every fork-path repository receives the re-enable call. -/
theorem c4_enable_without_pr_grant (now : String) (dryRun : Bool)
    (onlyRepos : Option (List String)) (excludeRepos : List String)
    (env : Env) (penv : PEnv) (repos : List Repo) :
    (∀ x : String, Ev.approvePRs x ∉
      (mainRun now dryRun onlyRepos excludeRepos env penv repos).events) ∧
    (dryRun = false →
      (filterRepositories repos onlyRepos excludeRepos).isEmpty = false →
      (probeAll env (filterRepositories repos onlyRepos excludeRepos)).2 = false →
      (runPipelineLoop penv
        (((probeAll env (filterRepositories repos onlyRepos excludeRepos)).1).filter
          (fun q => q.action == RepoAction.fork))).2 = true →
      ∀ p ∈ ((probeAll env (filterRepositories repos onlyRepos excludeRepos)).1).filter
          (fun q => q.action == RepoAction.fork),
        Ev.enableActions p.repo.name ∈
          (mainRun now dryRun onlyRepos excludeRepos env penv repos).events) := by
  constructor
  · intro x
    exact approvePRs_not_mem_mainRun now dryRun onlyRepos excludeRepos env penv repos x
  · intro hdry hne hnc hok p hp
    subst hdry
    have hmain : (mainRun now false onlyRepos excludeRepos env penv repos).events =
        probeEvents (filterRepositories repos onlyRepos excludeRepos) ++
          (runPipelineLoop penv
            (((probeAll env (filterRepositories repos onlyRepos excludeRepos)).1).filter
              (fun q => q.action == RepoAction.fork))).1 ++ [Ev.writeImportTf] := by
      simp [mainRun, hne, hnc, hok]
    rw [hmain]
    have hm := enableActions_mem_of_loop_ok penv _ hok p hp
    simp only [List.mem_append]
    exact Or.inl (Or.inr hm)

/-- C4 witness: the amended statement evaluated on a successful
single-repository fork run. -/
theorem c4_enable_without_pr_grant_witness :
    Ev.approvePRs "cdktn-a" ∉
      (mainRun "T" false none [] envForkOk penvAllOk [exRepo]).events ∧
    Ev.enableActions "cdktn-a" ∈
      (mainRun "T" false none [] envForkOk penvAllOk [exRepo]).events := by
  have h := c4_enable_without_pr_grant "T" false none [] envForkOk penvAllOk [exRepo]
  exact ⟨h.1 "cdktn-a",
    h.2 rfl (by decide) (by decide) (by decide)
      ⟨exRepo, true, false, RepoAction.fork⟩ (by decide)⟩

/-- C8 counterexample: a checkout whose CODEOWNERS is readable but free of
the legacy handle and whose single workflow file contains no legacy token
is left byte-identical by the rewrite, yet the commit and push step is
still performed, because a readable CODEOWNERS increments the change
counter unconditionally; so commit happening only if a file actually
changed is false. -/
theorem c8_commit_counterexample :
    (fixTeamNamesFs ⟨some "x", [("a.yml", "y")]⟩).committed = true ∧
    (fixTeamNamesFs ⟨some "x", [("a.yml", "y")]⟩).fs =
      ⟨some "x", [("a.yml", "y")]⟩ := by
  decide

/-- C8 amended: workflow files are content-modified only when they contain
a legacy token, and a CODEOWNERS free of the legacy handle is written back
byte-identical; but the commit and push step runs exactly when at least
one workflow file exists and either the CODEOWNERS file was readable,
counted as a change unconditionally, or some workflow file contained a
legacy token. -/
theorem c8_rewrite_and_commit_condition (fs : RepoFs) :
    (fixTeamNamesFs fs).fs.workflows =
      fs.workflows.map (fun p => (p.1, fixWorkflowFile p.2)) ∧
    (∀ c : String, needsFix c = false → fixWorkflowFile c = c) ∧
    (∀ c : String, fs.codeowners = some c →
      containsStr c OLD_CODEOWNERS_HANDLE = false →
      (fixTeamNamesFs fs).fs.codeowners = some c) ∧
    (fixTeamNamesFs fs).committed =
      (!fs.workflows.isEmpty &&
        (fs.codeowners.isSome || fs.workflows.any (fun p => needsFix p.2))) := by
  refine ⟨?_, ?_, ?_, ?_⟩
  · unfold fixTeamNamesFs
    by_cases he : fs.workflows.isEmpty = true
    · have : fs.workflows = [] := List.isEmpty_iff.mp he
      simp [he, this]
    · simp [he]
  · intro c hc
    simp [fixWorkflowFile, hc]
  · intro c hco hnc
    unfold fixTeamNamesFs
    rw [hco]
    by_cases he : fs.workflows.isEmpty = true <;>
      simp [he, replaceAllStr_of_not_contains c OLD_CODEOWNERS_HANDLE
        NEW_CODEOWNERS_HANDLE hnc]
  · unfold fixTeamNamesFs
    by_cases he : fs.workflows.isEmpty = true
    · simp [he]
    · cases hco : fs.codeowners with
      | none =>
        simp only [he, hco, Bool.not_false, Bool.true_and, if_false,
          Bool.false_eq_true, Option.isSome_none, Bool.false_or, Nat.zero_add]
        rw [Bool.eq_iff_iff]
        simp [List.countP_pos_iff, List.any_eq_true]
      | some c =>
        simp [he, hco, Nat.lt_of_lt_of_le Nat.zero_lt_one (Nat.le_add_right 1 _)]

/-- C8 witness: the amended statement evaluated on a token-free workflow
content and on a checkout with a handle-free CODEOWNERS and one token-free
workflow file. -/
theorem c8_rewrite_and_commit_condition_witness :
    fixWorkflowFile "retain" = "retain" ∧
    (fixTeamNamesFs ⟨some "x", [("a.yml", "y")]⟩).fs.codeowners = some "x" ∧
    (fixTeamNamesFs ⟨some "x", [("a.yml", "y")]⟩).committed = true := by
  have h := c8_rewrite_and_commit_condition ⟨some "x", [("a.yml", "y")]⟩
  refine ⟨h.2.1 "retain" (by decide), h.2.2.1 "x" rfl (by decide), ?_⟩
  rw [h.2.2.2]
  decide

theorem filterRepositories_nil (onlyRepos : Option (List String))
    (excludeRepos : List String) :
    filterRepositories [] onlyRepos excludeRepos = [] := by
  unfold filterRepositories
  cases onlyRepos <;> simp

/-- C9 counterexample: a present configuration document whose repository
resource collection is absent is not a validation failure: the script
defaults the collection to the empty object, reports zero descriptors and
exits 0, not 1. -/
theorem c9_missing_collection_counterexample :
    (scriptRun "T" ⟨true, true, some ⟨some ⟨none⟩⟩, none, [], true⟩
      envFreshOk penvAllOk).exit = 0 ∧
    ¬((scriptRun "T" ⟨true, true, some ⟨some ⟨none⟩⟩, none, [], true⟩
      envFreshOk penvAllOk).exit = 1) ∧
    (scriptRun "T" ⟨true, true, some ⟨some ⟨none⟩⟩, none, [], true⟩
      envFreshOk penvAllOk).events = [] := by
  decide

/-- C9 amended: with the earlier argument checks passing, an absent
configuration document file exits 1 with no side effects, while an absent
resource section or repository resource collection is treated as an empty
collection: the descriptor list is empty and the run exits 0 with no side
effects. -/
theorem c9_validation (now : String) (inp : ScriptInput) (env : Env) (penv : PEnv)
    (hgiven : inp.stackDirGiven = true)
    (hmx : (inp.onlyRepos.isSome && !inp.excludeRepos.isEmpty) = false)
    (hex : inp.stackDirExists = true) :
    (inp.cdkTfJsonFile = none →
      scriptRun now inp env penv = ⟨1, [], [], none⟩) ∧
    (∀ doc : CdkTfJson, inp.cdkTfJsonFile = some doc →
      (doc.resource = none ∨
        ∃ res : TfResources, doc.resource = some res ∧
          res.github_repository = none) →
      parseCdkTfJson doc = [] ∧
      scriptRun now inp env penv = ⟨0, [], [], none⟩) := by
  constructor
  · intro hfile
    simp [scriptRun, hgiven, hmx, hex, hfile]
  · intro doc hfile hdoc
    have hparse : parseCdkTfJson doc = [] := by
      unfold parseCdkTfJson
      rcases hdoc with h | ⟨res, hres, hgh⟩
      · rw [h]
        rfl
      · rw [hres]
        simp [hgh]
    refine ⟨hparse, ?_⟩
    simp [scriptRun, hgiven, hmx, hex, hfile, mainRun, hparse,
      filterRepositories_nil]

/-- C9 witness: the amended statement evaluated on a missing document file
and on a document without a resource section. -/
theorem c9_validation_witness :
    scriptRun "T" ⟨true, true, none, none, [], true⟩ envFreshOk penvAllOk =
      ⟨1, [], [], none⟩ ∧
    parseCdkTfJson ⟨none⟩ = [] ∧
    scriptRun "T" ⟨true, true, some ⟨none⟩, none, [], true⟩ envFreshOk penvAllOk =
      ⟨0, [], [], none⟩ := by
  refine ⟨(c9_validation "T" ⟨true, true, none, none, [], true⟩ envFreshOk
    penvAllOk rfl (by decide) rfl).1 rfl, ?_, ?_⟩
  · exact ((c9_validation "T" ⟨true, true, some ⟨none⟩, none, [], true⟩
      envFreshOk penvAllOk rfl (by decide) rfl).2 ⟨none⟩ rfl (Or.inl rfl)).1
  · exact ((c9_validation "T" ⟨true, true, some ⟨none⟩, none, [], true⟩
      envFreshOk penvAllOk rfl (by decide) rfl).2 ⟨none⟩ rfl (Or.inl rfl)).2
